import Mathlib

/-!
Shallow embedding of the laminar-mio semi-reliable UDP transport core
(repository `jstnlef/laminar-mio`), covering the packet codec, the
external/local ack records, the virtual-connection state machine and the
fragment serializer.  Machine integers (`u8`, `u16`, `u32`, `usize`) are
modelled as `Nat` with explicit `% 2^w` at every point where the Rust code
wraps; byte buffers are `List Nat`; fallible reads return `Option`;
fallible operations return `Except`.  Wall-clock instants are modelled as
an abstract `Nat` passed in by the caller, and the process-wide protocol
CRC32 (computed at build time from cargo metadata) is likewise passed as a
parameter.  The `f32` smoothed-RTT estimator is outside the embedding; no
claim below refers to its value.
-/

deriving instance DecidableEq for Except

namespace LaminarMio

/-- Big-endian bytes of a `u16` value (`byteorder::BigEndian` `write_u16`). -/
def u16be (n : Nat) : List Nat := [n / 256 % 256, n % 256]

/-- Big-endian bytes of a `u32` value (`byteorder::BigEndian` `write_u32`). -/
def u32be (n : Nat) : List Nat :=
  [n / 16777216 % 256, n / 65536 % 256, n / 256 % 256, n % 256]

/-- Read one byte from the front of a buffer (`read_u8`). -/
def readU8 : List Nat → Option (Nat × List Nat)
  | [] => none
  | b :: rest => some (b, rest)

/-- Read a big-endian `u16` from the front of a buffer (`read_u16`). -/
def readU16be : List Nat → Option (Nat × List Nat)
  | a :: b :: rest => some (a * 256 + b, rest)
  | _ => none

/-- Read a big-endian `u32` from the front of a buffer (`read_u32`). -/
def readU32be : List Nat → Option (Nat × List Nat)
  | a :: b :: c :: d :: rest => some (((a * 256 + b) * 256 + c) * 256 + d, rest)
  | _ => none

/-- Wrapping subtraction on `u16` (`a.wrapping_sub(b)`), for `a, b < 65536`. -/
def wsub16 (a b : Nat) : Nat := (a + (65536 - b % 65536)) % 65536

/-- Delivery method enumeration.  Modelled from the spec: `delivery_method.rs`
is declared in `net.rs` but absent from `src`; the spec wire table gives ids
0 = UnreliableUnordered, 1 = ReliableUnordered, 2 = UnreliableSequenced,
3 = ReliableSequenced, 4 = ReliableOrdered.  Ids outside the table are not
specified; the model lets them fall back to `UnreliableUnordered` (no claim
depends on this choice: only id 1 maps to `ReliableUnordered`). -/
inductive DeliveryMethod
  | UnreliableUnordered
  | ReliableUnordered
  | UnreliableSequenced
  | ReliableSequenced
  | ReliableOrdered
deriving DecidableEq, Repr

/-- Wire id of a delivery method (spec wire table). -/
def DeliveryMethod.get_delivery_method_id : DeliveryMethod → Nat
  | .UnreliableUnordered => 0
  | .ReliableUnordered => 1
  | .UnreliableSequenced => 2
  | .ReliableSequenced => 3
  | .ReliableOrdered => 4

/-- Decode a delivery method from its wire id (spec wire table, see
`DeliveryMethod` for the treatment of unlisted ids). -/
def DeliveryMethod.get_delivery_method_from_id (n : Nat) : DeliveryMethod :=
  match n with
  | 1 => .ReliableUnordered
  | 2 => .UnreliableSequenced
  | 3 => .ReliableSequenced
  | 4 => .ReliableOrdered
  | _ => .UnreliableUnordered

/-- Packet type enumeration (`src/src/packet/packet_type.rs`). -/
inductive PacketType
  | Packet
  | Fragment
  | HeartBeat
  | Disconnect
  | Unknown
deriving DecidableEq, Repr

/-- Wire id of a packet type (`PacketType::get_id`). -/
def PacketType.get_id : PacketType → Nat
  | .Packet => 0
  | .Fragment => 1
  | .HeartBeat => 2
  | .Disconnect => 3
  | .Unknown => 255

/-- Decode a packet type from its wire id (`PacketType::get_packet_type`):
unknown ids decode to `Unknown`. -/
def PacketType.get_packet_type (n : Nat) : PacketType :=
  match n with
  | 0 => .Packet
  | 1 => .Fragment
  | 2 => .HeartBeat
  | 3 => .Disconnect
  | _ => .Unknown

/-- Third party ack information (`src/src/net/external_ack.rs`):
`last_sequence_num : u16`, `ack_field : u32`. -/
structure ExternalAcks where
  last_sequence_num : Nat
  ack_field : Nat
deriving DecidableEq, Repr

/-- The `Default` instance of `ExternalAcks` (`#[derive(Default)]`). -/
def ExternalAcks.default : ExternalAcks := { last_sequence_num := 0, ack_field := 0 }

/-- Acknowledge a packet (`ExternalAcks::ack`).  The shifts are `u32`
operations, hence the `% 4294967296`. -/
def ExternalAcks.ack (e : ExternalAcks) (sequence_num : Nat) : ExternalAcks :=
  let pos_diff := wsub16 sequence_num e.last_sequence_num
  let neg_diff := wsub16 e.last_sequence_num sequence_num
  if pos_diff = 0 then e
  else if pos_diff < 32000 then
    { last_sequence_num := sequence_num,
      ack_field :=
        if pos_diff ≤ 32 then
          ((e.ack_field * 2 + 1) * 2 ^ (pos_diff - 1)) % 4294967296
        else 0 }
  else if neg_diff ≤ 32 then
    { e with ack_field := e.ack_field ||| 2 ^ (neg_diff - 1) }
  else e

/-- Fold `ExternalAcks.ack` over a list of incoming sequence numbers. -/
def ExternalAcks.ackAll (e : ExternalAcks) (l : List Nat) : ExternalAcks :=
  l.foldl ExternalAcks.ack e

/-- Reliable header as defined in `src/src/packet/headers/reliable.rs`:
`sequence_num : u16`, `last_acked : u16`, `ack_field : u32`. -/
structure ReliableHeader where
  sequence_num : Nat
  last_acked : Nat
  ack_field : Nat
deriving DecidableEq, Repr

/-- The `Default` instance of `ReliableHeader` (`ReliableHeader::default`,
which is `Self::new(0, 0, 0)`). -/
def ReliableHeader.mkDefault : ReliableHeader :=
  { sequence_num := 0, last_acked := 0, ack_field := 0 }

/-- Encode a reliable header (`impl HeaderWriter for ReliableHeader`): a
big-endian `u16` `sequence_num`, then a big-endian `u16` `last_acked`, then a
big-endian `u32` `ack_field`. -/
def ReliableHeader.write (h : ReliableHeader) : List Nat :=
  u16be h.sequence_num ++ u16be h.last_acked ++ u32be h.ack_field

/-- Decode a reliable header (`impl HeaderReader for ReliableHeader`). -/
def ReliableHeader.read (bytes : List Nat) : Option (ReliableHeader × List Nat) := do
  let (sequence_num, r1) ← readU16be bytes
  let (last_acked, r2) ← readU16be r1
  let (ack_field, r3) ← readU32be r2
  pure ({ sequence_num, last_acked, ack_field }, r3)

/-- Reported size of a reliable header (`calc_header_size::<ReliableHeader>()`:
the length of the encoding of the default header). -/
def ReliableHeader.size : Nat := (ReliableHeader.mkDefault.write).length

/-- Reliable header as the outgoing pipeline expects it.  Modelled from the
spec: `VirtualConnection::process_outgoing` builds
`ReliableHeader::new(external_acks.last_acked(), external_acks.ack_field())`
and the tests in `processed.rs` use the same two-argument constructor, but the
`ReliableHeader` in `src/src/packet/headers/reliable.rs` takes three
arguments; the two-field revision those call sites expect is absent from
`src`.  Spec 3/6: fields `last_acked` (`u16`) and `ack_field` (`u32`),
6 bytes on the wire, big-endian. -/
structure SpecReliableHeader where
  last_acked : Nat
  ack_field : Nat
deriving DecidableEq, Repr

/-- Encode the spec-modelled two-field reliable header (6 bytes). -/
def SpecReliableHeader.write (h : SpecReliableHeader) : List Nat :=
  u16be h.last_acked ++ u32be h.ack_field

/-- Standard header (`src/src/packet/headers/standard.rs`): protocol CRC32
(`u32`), packet type (`u8`), delivery method (`u8`), sequence number
(`u16`). -/
structure StandardHeader where
  protocol_version : Nat
  packet_type : PacketType
  delivery_method : DeliveryMethod
  sequence_num : Nat
deriving DecidableEq, Repr

/-- Encode a standard header (`impl HeaderWriter for StandardHeader`), 8 bytes
big-endian. -/
def StandardHeader.write (h : StandardHeader) : List Nat :=
  u32be h.protocol_version ++ [h.packet_type.get_id % 256]
    ++ [h.delivery_method.get_delivery_method_id % 256] ++ u16be h.sequence_num

/-- Decode a standard header (`impl HeaderReader for StandardHeader`). -/
def StandardHeader.read (bytes : List Nat) : Option (StandardHeader × List Nat) := do
  let (protocol_version, r1) ← readU32be bytes
  let (packet_id, r2) ← readU8 r1
  let (delivery_method_id, r3) ← readU8 r2
  let (sequence_num, r4) ← readU16be r3
  pure ({ protocol_version,
          packet_type := PacketType.get_packet_type packet_id,
          delivery_method := DeliveryMethod.get_delivery_method_from_id delivery_method_id,
          sequence_num }, r4)

/-- Fragment header bytes as `ProcessedPacket::serialize_fragmented` writes
them.  Modelled from the spec: that function calls
`FragmentHeader::new(fragment_id, num_fragments)` but the `FragmentHeader` in
`src/src/packet/headers/fragment.rs` takes four arguments; the two-field
revision this call site expects is absent from `src`.  Spec 3/6: fields `id`
(`u8`) and `num_fragments` (`u8`), 2 bytes on the wire. -/
def writeFragmentHeader (id num_fragments : Nat) : List Nat :=
  [id % 256, num_fragments % 256]

/-- Errors of the fragmenter.  `ExceededMaxFragments` is the variant
`processed.rs` raises; it is missing from the `FragmentError` enum in
`src/src/errors.rs` (which only has `PacketHeaderNotFound`) and is modelled
from the spec error taxonomy. -/
inductive FragmentError
  | PacketHeaderNotFound
  | ExceededMaxFragments
deriving DecidableEq, Repr

/-- Errors of packet submission (`src/src/errors.rs`). -/
inductive PacketError
  | ExceededMaxPacketSize
deriving DecidableEq, Repr

/-- Top-level error enum (`src/src/errors.rs`). -/
inductive LaminarError
  | FragmentErr (e : FragmentError)
  | PacketErr (e : PacketError)
  | PollingNotStarted
  | ProtocolVersionMismatch
  | ReceivedDataTooShort
deriving DecidableEq, Repr

/-- User-facing packet (`src/src/packet.rs`): peer address (modelled as an
opaque `Nat` token), payload bytes, delivery method. -/
structure Packet where
  address : Nat
  payload : List Nat
  delivery_method : DeliveryMethod
deriving DecidableEq, Repr

/-- Local ack record.  Modelled from the spec: `local_ack.rs` is declared in
`net.rs` but absent from `src`.  Spec 4.3: it maintains, per outgoing
reliable sequence, the retained payload bytes. -/
structure LocalAckRecord where
  packets : List (Nat × List Nat)
deriving DecidableEq, Repr

/-- The default (empty) local ack record. -/
def LocalAckRecord.mkDefault : LocalAckRecord := { packets := [] }

/-- Retain an outgoing payload until acknowledged (`local_acks.enqueue`).
Modelled from the spec (4.6 step 2). -/
def LocalAckRecord.enqueue (r : LocalAckRecord) (seq : Nat) (payload : List Nat) :
    LocalAckRecord :=
  { packets := r.packets ++ [(seq, payload)] }

/-- Membership in the 33-entry ack window `[last_acked - 32, last_acked]`
(circular): forward distance to `last_acked` at most 32 (spec 4.1/4.3). -/
def inAckWindow (last_acked seq : Nat) : Bool := wsub16 last_acked seq ≤ 32

/-- Whether `seq` is acknowledged by the pair `(last_acked, ack_field)`:
either it equals `last_acked`, or its distance `d ∈ [1, 32]` behind
`last_acked` has bit `d - 1` set (spec 4.2/4.3). -/
def ackedInField (last_acked ack_field seq : Nat) : Bool :=
  let d := wsub16 last_acked seq
  d = 0 || (d ≤ 32 && ack_field.testBit (d - 1))

/-- Process a peer ack (`LocalAckRecord::ack`).  Modelled from the spec
(4.3): sequences outside the 33-entry window are considered dropped and their
payloads are returned to the caller; acknowledged sequences are discarded;
in-window unacknowledged sequences are retained. -/
def LocalAckRecord.ack (r : LocalAckRecord) (last_acked ack_field : Nat) :
    List (Nat × List Nat) × LocalAckRecord :=
  let dropped := r.packets.filter (fun e => !(inAckWindow last_acked e.1))
  let kept := r.packets.filter
    (fun e => inAckWindow last_acked e.1 && !(ackedInField last_acked ack_field e.1))
  (dropped, { packets := kept })

/-- Congestion sample (`CongestionData { sequence_num, sending_time }`).
The ring buffer module `sequence_buffer` is referenced by
`virtual_connection.rs` but absent from `src`; both types are modelled from
spec 4.4 with the sending instant as an abstract `Nat`. -/
structure CongestionData where
  sequence_num : Nat
  sending_time : Nat
deriving DecidableEq, Repr

/-- Fixed-capacity ring keyed by `sequence mod capacity`.  Modelled from the
spec (4.4). -/
structure SequenceBuffer where
  capacity : Nat
  entries : List (Nat × CongestionData)
deriving DecidableEq, Repr

/-- Create an empty ring of the given capacity (`with_capacity`). -/
def SequenceBuffer.with_capacity (n : Nat) : SequenceBuffer :=
  { capacity := n, entries := [] }

/-- Store `data` at slot `seq mod capacity`, overwriting any stale entry
(spec 4.4). -/
def SequenceBuffer.insert (b : SequenceBuffer) (data : CongestionData) (seq : Nat) :
    SequenceBuffer :=
  { b with entries :=
      (seq % b.capacity, data) :: b.entries.filter (fun e => e.1 != seq % b.capacity) }

/-- Look up the sample at slot `seq mod capacity`; it is returned only when
the stored sequence equals `seq` (spec 4.4). -/
def SequenceBuffer.get (b : SequenceBuffer) (seq : Nat) : Option CongestionData :=
  match b.entries.lookup (seq % b.capacity) with
  | some d => if d.sequence_num = seq then some d else none
  | none => none

/-- Socket configuration (`src/src/config.rs`); the two `Duration` fields are
irrelevant to the claims and omitted. -/
structure SocketConfig where
  fragment_size_bytes : Nat
  max_fragments : Nat
  receive_buffer_size_bytes : Nat
  socket_event_buffer_size : Nat
deriving DecidableEq, Repr

/-- Derived maximum packet size (`SocketConfig::max_packet_size_bytes`):
the source computes `max_fragments as usize + fragment_size_bytes as usize`. -/
def SocketConfig.max_packet_size_bytes (c : SocketConfig) : Nat :=
  c.max_fragments + c.fragment_size_bytes

/-- The `Default` instance of `SocketConfig`. -/
def SocketConfig.mkDefault : SocketConfig :=
  { fragment_size_bytes := 1450,
    max_fragments := 16,
    receive_buffer_size_bytes := 1500,
    socket_event_buffer_size := 1024 }

/-- Wrapper holding a packet ready for serialization
(`src/src/packet/processed.rs`).  The `serialized_fragments` cache is an
implementation detail of the iterator and is not part of the functional
state; `fragments` below returns the buffers directly. -/
structure ProcessedPacket where
  sequence_num : Nat
  packet : Packet
  reliability : Option SpecReliableHeader
deriving DecidableEq, Repr

/-- Bytes of an optional reliability header appended after the other
headers. -/
def reliabilityBytes : Option SpecReliableHeader → List Nat
  | some r => r.write
  | none => []

/-- Number of fragments a payload needs (`total_fragments_needed`): the
payload length is cast to `u16` (hence the `% 65536`) and divided by
`fragment_size`, rounding up.  Division by a zero `fragment_size` panics in
Rust; every claim below assumes `fragment_size ≥ 1`. -/
def total_fragments_needed (payload_length fragment_size : Nat) : Nat :=
  let pl := payload_length % 65536
  let remainder := if pl % fragment_size > 0 then 1 else 0
  pl / fragment_size + remainder

/-- Serialize without fragmentation (`ProcessedPacket::serialize_unfragmented`):
`StandardHeader(Packet)` then the optional reliability header then the whole
payload.  `crc` is the process-wide protocol CRC32 that `StandardHeader::new`
stamps into the header. -/
def ProcessedPacket.serialize_unfragmented (p : ProcessedPacket) (crc : Nat) : List Nat :=
  StandardHeader.write
      { protocol_version := crc, packet_type := PacketType.Packet,
        delivery_method := p.packet.delivery_method, sequence_num := p.sequence_num }
    ++ reliabilityBytes p.reliability ++ p.packet.payload

/-- Serialize with fragmentation (`ProcessedPacket::serialize_fragmented`).
The slice bounds are computed in `u16` arithmetic
(`u16::from(fragment_id) * fragment_size`), hence the `% 65536`; the Rust
slice `payload[start..end]` panics when `start > end` or `end > len`, while
the model's `drop`/`take` is total — the theorems below only speak about the
regime where the two agree. -/
def ProcessedPacket.serialize_fragmented (p : ProcessedPacket)
    (crc num_fragments fragment_size : Nat) : List (List Nat) :=
  (List.range num_fragments).map (fun fragment_id =>
    let start_fragment_pos := fragment_id * fragment_size % 65536
    let end0 := (fragment_id + 1) * fragment_size % 65536
    let payload_length := p.packet.payload.length
    let end_fragment_pos := if end0 > payload_length then payload_length else end0
    StandardHeader.write
        { protocol_version := crc, packet_type := PacketType.Fragment,
          delivery_method := p.packet.delivery_method, sequence_num := p.sequence_num }
      ++ writeFragmentHeader fragment_id num_fragments
      ++ reliabilityBytes p.reliability
      ++ (p.packet.payload.drop start_fragment_pos).take
           (end_fragment_pos - start_fragment_pos))

/-- Produce the wire-ready datagrams (`ProcessedPacket::fragments`): compute
the fragment count (cast to `u8`, hence the `% 256`), fail with
`ExceededMaxFragments` when it exceeds `max_fragments`, serialize
unfragmented when it is at most 1, fragmented otherwise. -/
def ProcessedPacket.fragments (p : ProcessedPacket)
    (crc fragment_size max_fragments : Nat) :
    Except FragmentError (List (List Nat)) :=
  let payload_length := p.packet.payload.length
  let num_fragments := total_fragments_needed payload_length fragment_size % 256
  if num_fragments > max_fragments then
    Except.error FragmentError.ExceededMaxFragments
  else if num_fragments ≤ 1 then
    Except.ok [p.serialize_unfragmented crc]
  else
    Except.ok (p.serialize_fragmented crc num_fragments fragment_size)

/-- Per-peer virtual connection state
(`src/src/net/connection/virtual_connection.rs`).  The `RttMeasurer` and the
`f32` field `rtt` are floating-point and outside the embedding; no claim
refers to them. -/
structure VirtualConnection where
  last_packet_time : Nat
  remote_address : Nat
  max_packet_size_bytes : Nat
  sequence_num : Nat
  local_acks : LocalAckRecord
  external_acks : ExternalAcks
  dropped_packets : List (List Nat)
  congestion_data : SequenceBuffer
deriving DecidableEq, Repr

/-- Construct a fresh connection (`VirtualConnection::new`); `now` is the
creation instant (`Instant::now()`).  The congestion ring capacity is
`<u16>::max_value() as usize`, which is 65535. -/
def VirtualConnection.new (remote_address : Nat) (config : SocketConfig) (now : Nat) :
    VirtualConnection :=
  { last_packet_time := now,
    remote_address,
    max_packet_size_bytes := config.max_packet_size_bytes,
    sequence_num := 0,
    local_acks := LocalAckRecord.mkDefault,
    external_acks := ExternalAcks.default,
    dropped_packets := [],
    congestion_data := SequenceBuffer.with_capacity 65535 }

/-- Process an incoming datagram (`VirtualConnection::process_incoming`).
The mutations performed before an early `return Err` persist on the Rust
`&mut self`, so the connection is returned alongside the result.  `crc` is
the process-wide protocol CRC32 and `now` the current instant.  The source's
`if packet_type == Fragment` branch has an empty body and is reproduced as
such. -/
def VirtualConnection.process_incoming (conn : VirtualConnection) (crc now : Nat)
    (payload : List Nat) : VirtualConnection × Except LaminarError (Option Packet) :=
  let conn := { conn with last_packet_time := now }
  match StandardHeader.read payload with
  | none => (conn, Except.error LaminarError.ReceivedDataTooShort)
  | some (standard_header, rest) =>
    if standard_header.protocol_version ≠ crc then
      (conn, Except.error LaminarError.ProtocolVersionMismatch)
    else
      match standard_header.delivery_method with
      | DeliveryMethod.ReliableUnordered =>
        match ReliableHeader.read rest with
        | none => (conn, Except.error LaminarError.ReceivedDataTooShort)
        | some (reliable_header, rest2) =>
          let conn := { conn with
            external_acks := conn.external_acks.ack standard_header.sequence_num }
          let ackRes := conn.local_acks.ack reliable_header.last_acked
            reliable_header.ack_field
          let conn := { conn with
            local_acks := ackRes.2,
            dropped_packets := ackRes.1.map Prod.snd }
          (conn, Except.ok (some
            { address := conn.remote_address, payload := rest2,
              delivery_method := standard_header.delivery_method }))
      | _ =>
        (conn, Except.ok (some
          { address := conn.remote_address, payload := rest,
            delivery_method := standard_header.delivery_method }))

/-- Pre-process an outgoing packet (`VirtualConnection::process_outgoing`):
reject oversize payloads, then for reliable delivery record a congestion
sample, retain the payload in the local ack record and build the reliability
header from the external ack record; finally wrap the packet with the current
sequence number and advance it with `u16` wrapping. -/
def VirtualConnection.process_outgoing (conn : VirtualConnection) (now : Nat)
    (packet : Packet) : VirtualConnection × Except PacketError ProcessedPacket :=
  if conn.max_packet_size_bytes < packet.payload.length then
    (conn, Except.error PacketError.ExceededMaxPacketSize)
  else
    let step :=
      match packet.delivery_method with
      | DeliveryMethod.ReliableUnordered =>
        ({ conn with
            congestion_data := conn.congestion_data.insert
              { sequence_num := conn.sequence_num, sending_time := now }
              conn.sequence_num,
            local_acks := conn.local_acks.enqueue conn.sequence_num packet.payload },
         some { last_acked := conn.external_acks.last_sequence_num,
                ack_field := conn.external_acks.ack_field : SpecReliableHeader })
      | _ => (conn, none)
    let processed_packet : ProcessedPacket :=
      { sequence_num := step.1.sequence_num, packet, reliability := step.2 }
    ({ step.1 with sequence_num := (step.1.sequence_num + 1) % 65536 },
     Except.ok processed_packet)

/-- Drain the dropped-packets queue (`drain_dropped_packets`): return the
queued payloads and clear the queue. -/
def VirtualConnection.drain_dropped_packets (conn : VirtualConnection) :
    List (List Nat) × VirtualConnection :=
  (conn.dropped_packets, { conn with dropped_packets := [] })

/-- Registry of active connections (`src/src/net/connection.rs`); the
`HashMap<SocketAddr, VirtualConnection>` is modelled as an association
list. -/
structure ActiveConnections where
  connections : List (Nat × VirtualConnection)
deriving DecidableEq, Repr

/-- Look up a connection by address. -/
def ActiveConnections.lookup (ac : ActiveConnections) (address : Nat) :
    Option VirtualConnection :=
  ac.connections.lookup address

/-- Fetch a connection, inserting a fresh one when the address is unseen
(`ActiveConnections::get_or_insert_connection`).  Returns the connection that
the Rust `get_mut` hands back together with the updated registry; the
`expect` arm of the source is unreachable and mirrored by returning the fresh
connection. -/
def ActiveConnections.get_or_insert_connection (ac : ActiveConnections)
    (address : Nat) (config : SocketConfig) (now : Nat) :
    VirtualConnection × ActiveConnections :=
  let m :=
    if (ac.connections.lookup address).isNone then
      (address, VirtualConnection.new address config now) :: ac.connections
    else ac.connections
  match m.lookup address with
  | some c => (c, { connections := m })
  | none => (VirtualConnection.new address config now, { connections := m })

/-- Concrete two-round scenario used to examine the dropped-packets queue:
a fresh connection sends one reliable payload `[1, 2, 3]` at sequence 0. -/
def dropScene1 : VirtualConnection :=
  ((VirtualConnection.new 0 SocketConfig.mkDefault 0).process_outgoing 1
    { address := 0, payload := [1, 2, 3],
      delivery_method := DeliveryMethod.ReliableUnordered }).1

/-- The scenario after a reliable datagram arrives whose ack pair
`(last_acked = 40, ack_field = 0)` leaves sequence 0 outside the ack window,
so the payload `[1, 2, 3]` is reported dropped. -/
def dropScene2 : VirtualConnection :=
  (dropScene1.process_incoming 7 2
    ([0, 0, 0, 7, 0, 1, 0, 9] ++ [0, 0, 0, 40, 0, 0, 0, 0])).1

/-- The scenario after a second reliable payload `[9, 9]` is sent at
sequence 1, without the dropped queue having been drained. -/
def dropScene3 : VirtualConnection :=
  (dropScene2.process_outgoing 3
    { address := 0, payload := [9, 9],
      delivery_method := DeliveryMethod.ReliableUnordered }).1

/-- The scenario after a second reliable datagram arrives whose ack pair
`(last_acked = 41, ack_field = 0)` reports the payload `[9, 9]` dropped. -/
def dropScene4 : VirtualConnection :=
  (dropScene3.process_incoming 7 4
    ([0, 0, 0, 7, 0, 1, 0, 10] ++ [0, 0, 0, 41, 0, 0, 0, 0])).1

/-- Length of the header prefix of each datagram `fragments` produces: the
8-byte standard header, the 2-byte fragment header when the packet is
fragmented, and the optional reliability header. -/
def datagramHeaderLen (p : ProcessedPacket) (num_fragments : Nat) : Nat :=
  8 + (if num_fragments ≤ 1 then 0 else 2) + (reliabilityBytes p.reliability).length

/-- Invariant carried through `ExternalAcks.ack` for input sequences drawn
from `[0, 32000)`: the last seen sequence is the running maximum, the ack
field is a `u32`, and every processed input at distance `d ∈ [1, 32]` behind
the running maximum has bit `d - 1` of the ack field set. -/
def AckInv (seen : List Nat) (e : ExternalAcks) : Prop :=
  e.last_sequence_num = seen.foldl max 0 ∧
  e.ack_field < 4294967296 ∧
  ∀ s ∈ seen, 1 ≤ seen.foldl max 0 - s → seen.foldl max 0 - s ≤ 32 →
    e.ack_field.testBit (seen.foldl max 0 - s - 1) = true

section Lemmas

/-- Wrapping `u16` subtraction is ordinary subtraction when no wrap occurs. -/
lemma wsub16_of_le {a b : Nat} (ha : a < 65536) (hb : b ≤ a) : wsub16 a b = a - b := by
  unfold wsub16
  have hb2 : b % 65536 = b := Nat.mod_eq_of_lt (lt_of_le_of_lt hb ha)
  rw [hb2]
  have h1 : a + (65536 - b) = 65536 + (a - b) := by omega
  rw [h1, Nat.add_mod_left]
  exact Nat.mod_eq_of_lt (by omega)

/-- Wrapping `u16` subtraction wraps once when the subtrahend is larger. -/
lemma wsub16_of_lt {a b : Nat} (hb : b < 65536) (ha : a < b) :
    wsub16 a b = 65536 - (b - a) := by
  unfold wsub16
  have hb2 : b % 65536 = b := Nat.mod_eq_of_lt hb
  rw [hb2]
  have h1 : a + (65536 - b) = 65536 - (b - a) := by omega
  rw [h1]
  exact Nat.mod_eq_of_lt (by omega)

end Lemmas

/-- C1: the derived maximum packet size is claimed to be
`max_fragments * fragment_size_bytes` (23,200 by default), but the source
adds the two fields: the default maximum is 16 + 1450 = 1466, so
`process_outgoing` rejects a 23,200-byte payload with
`ExceededMaxPacketSize`. -/
theorem c1_max_packet_size_uses_addition :
    SocketConfig.mkDefault.max_packet_size_bytes = 1466 ∧
    SocketConfig.mkDefault.max_packet_size_bytes ≠
      SocketConfig.mkDefault.max_fragments * SocketConfig.mkDefault.fragment_size_bytes ∧
    ((VirtualConnection.new 0 SocketConfig.mkDefault 0).process_outgoing 0
        { address := 0, payload := List.replicate 23200 0,
          delivery_method := DeliveryMethod.UnreliableUnordered }).2 =
      Except.error PacketError.ExceededMaxPacketSize := by
  refine ⟨rfl, by decide, ?_⟩
  unfold VirtualConnection.process_outgoing
  rw [if_pos]
  rw [List.length_replicate]
  decide

/-- C2: the source's `if packet_type == Fragment` branch is empty, so a
well-formed fragment datagram (packet type 1, one fragment of a multi-part
packet) is not fed to reassembly: `process_incoming` returns the remaining
bytes as a completed packet instead of `Ok(None)`. -/
theorem c2_fragment_branch_is_empty :
    (StandardHeader.read [0, 0, 0, 7, 1, 0, 0, 5, 10, 20, 30]).map
        (fun x => x.1.packet_type) = some PacketType.Fragment ∧
    ((VirtualConnection.new 0 SocketConfig.mkDefault 0).process_incoming 7 1
        [0, 0, 0, 7, 1, 0, 0, 5, 10, 20, 30]).2 =
      Except.ok (some { address := 0, payload := [10, 20, 30],
                        delivery_method := DeliveryMethod.UnreliableUnordered }) ∧
    ((VirtualConnection.new 0 SocketConfig.mkDefault 0).process_incoming 7 1
        [0, 0, 0, 7, 1, 0, 0, 5, 10, 20, 30]).2 ≠ Except.ok none := by
  refine ⟨rfl, by decide, by decide⟩

/-- C3 counterexample: encoding the reliable header of
`src/src/packet/headers/reliable.rs` writes 8 bytes, not 6, and the first
two bytes carry `sequence_num`, not `last_acked`; its reported size is 8. -/
theorem c3_counterexample :
    (ReliableHeader.write { sequence_num := 1, last_acked := 2, ack_field := 3 }) =
      [0, 1, 0, 2, 0, 0, 0, 3] ∧
    (ReliableHeader.write ReliableHeader.mkDefault).length = 8 ∧
    ReliableHeader.size = 8 ∧ (8 : Nat) ≠ 6 := by
  refine ⟨rfl, rfl, rfl, by decide⟩

/-- C3 (amended): encoding a reliable header writes exactly 8 bytes — the
`sequence_num` as a big-endian `u16`, then `last_acked` as a big-endian
`u16`, then `ack_field` as a big-endian `u32` — and the header's reported
size is 8. -/
theorem c3_reliable_header_writes_8_bytes (h : ReliableHeader)
    (h1 : h.sequence_num < 65536) (h2 : h.last_acked < 65536)
    (h3 : h.ack_field < 4294967296) :
    h.write = [h.sequence_num / 256, h.sequence_num % 256,
               h.last_acked / 256, h.last_acked % 256,
               h.ack_field / 16777216, h.ack_field / 65536 % 256,
               h.ack_field / 256 % 256, h.ack_field % 256] ∧
    h.write.length = 8 ∧ ReliableHeader.size = 8 := by
  refine ⟨?_, by simp [ReliableHeader.write, u16be, u32be], rfl⟩
  simp only [ReliableHeader.write, u16be, u32be, List.cons_append, List.nil_append]
  have e1 : h.sequence_num / 256 % 256 = h.sequence_num / 256 := by omega
  have e2 : h.last_acked / 256 % 256 = h.last_acked / 256 := by omega
  have e3 : h.ack_field / 16777216 % 256 = h.ack_field / 16777216 := by omega
  rw [e1, e2, e3]

/-- C3 witness: the amended statement evaluated at a concrete header. -/
theorem c3_reliable_header_writes_8_bytes_witness :
    ReliableHeader.write { sequence_num := 258, last_acked := 515, ack_field := 16909060 } =
      [258 / 256, 258 % 256, 515 / 256, 515 % 256,
       16909060 / 16777216, 16909060 / 65536 % 256, 16909060 / 256 % 256, 16909060 % 256] ∧
    (ReliableHeader.write
        { sequence_num := 258, last_acked := 515, ack_field := 16909060 }).length = 8 ∧
    ReliableHeader.size = 8 :=
  c3_reliable_header_writes_8_bytes
    { sequence_num := 258, last_acked := 515, ack_field := 16909060 }
    (by decide) (by decide) (by decide)

/-- C4 counterexample: `s = 32000` against a default record is "newer" under
the claim's relation `0 < (s - last) mod 2^16 < 2^15`, yet the source's
cutoff is 32000, so `last_sequence_num` is not updated. -/
theorem c4_counterexample :
    0 < wsub16 32000 ExternalAcks.default.last_sequence_num ∧
    wsub16 32000 ExternalAcks.default.last_sequence_num < 32768 ∧
    (ExternalAcks.default.ack 32000).last_sequence_num ≠ 32000 ∧
    (ExternalAcks.default.ack 32000).last_sequence_num =
      ExternalAcks.default.last_sequence_num := by
  decide

/-- C4 (amended): `ack(s)` sets `last_sequence_num` to `s` exactly when
`0 < (s - last_sequence_num) mod 2^16 < 32000` (the source's cutoff, not
`2^15`); in every other case `last_sequence_num` is unchanged. -/
theorem c4_ack_last_update_rule (e : ExternalAcks) (s : Nat) :
    (e.ack s).last_sequence_num =
      if 0 < wsub16 s e.last_sequence_num ∧ wsub16 s e.last_sequence_num < 32000 then s
      else e.last_sequence_num := by
  unfold ExternalAcks.ack
  by_cases h0 : wsub16 s e.last_sequence_num = 0
  · simp [h0]
  · by_cases h1 : wsub16 s e.last_sequence_num < 32000
    · simp [h0, h1, Nat.pos_of_ne_zero h0]
    · by_cases h2 : wsub16 e.last_sequence_num s ≤ 32 <;> simp [h0, h1, h2]

/-- Running maximum: the seed never exceeds the fold. -/
lemma init_le_foldl_max (l : List Nat) (a : Nat) : a ≤ l.foldl max a := by
  induction l generalizing a with
  | nil => exact le_refl a
  | cons x xs ih => exact le_trans (le_max_left a x) (ih (max a x))

/-- Running maximum: every element is bounded by the fold. -/
lemma mem_le_foldl_max {l : List Nat} (a : Nat) {s : Nat} (h : s ∈ l) :
    s ≤ l.foldl max a := by
  induction l generalizing a with
  | nil => cases h
  | cons x xs ih =>
    rcases List.mem_cons.mp h with h | h
    · subst h; exact le_trans (le_max_right a s) (init_le_foldl_max xs (max a s))
    · exact ih (max a x) h

/-- Running maximum: a strict bound on the seed and all elements bounds the
fold. -/
lemma foldl_max_lt {l : List Nat} {a c : Nat} (ha : a < c) (h : ∀ s ∈ l, s < c) :
    l.foldl max a < c := by
  induction l generalizing a with
  | nil => exact ha
  | cons x xs ih =>
    exact ih (max_lt ha (h x (List.mem_cons_self x xs)))
      (fun s hs => h s (List.mem_cons_of_mem x hs))

/-- One step of the ack invariant: acknowledging a further in-range sequence
preserves `AckInv`. -/
lemma ackInv_step {seen : List Nat} {e : ExternalAcks} {t : Nat}
    (hseen : ∀ s ∈ seen, s < 32000) (ht : t < 32000) (h : AckInv seen e) :
    AckInv (seen ++ [t]) (e.ack t) := by
  unfold AckInv at h ⊢
  obtain ⟨hlast, hfield, hbits⟩ := h
  have hmlt : seen.foldl max 0 < 32000 := foldl_max_lt (by omega) hseen
  have hmax : (seen ++ [t]).foldl max 0 = max (seen.foldl max 0) t := by
    rw [List.foldl_append]; rfl
  have h32 : (4294967296 : Nat) = 2 ^ 32 := by norm_num
  rcases Nat.lt_trichotomy t (seen.foldl max 0) with hcase | hcase | hcase
  · -- the input is older than the running maximum
    have hpos : wsub16 t e.last_sequence_num = 65536 - (seen.foldl max 0 - t) := by
      rw [hlast]; exact wsub16_of_lt (by omega) hcase
    have hneg : wsub16 e.last_sequence_num t = seen.foldl max 0 - t := by
      rw [hlast]; exact wsub16_of_le (by omega) (le_of_lt hcase)
    by_cases hgap : seen.foldl max 0 - t ≤ 32
    · -- in range behind the maximum: fill the gap bit
      have hack : e.ack t =
          { e with ack_field :=
              e.ack_field ||| 2 ^ (seen.foldl max 0 - t - 1) } := by
        unfold ExternalAcks.ack
        simp only [hpos, hneg]
        rw [if_neg (by omega), if_neg (by omega), if_pos hgap]
      refine ⟨?_, ?_, ?_⟩
      · rw [hack, hmax, Nat.max_eq_left (le_of_lt hcase)]; exact hlast
      · have hb : (2 : Nat) ^ (seen.foldl max 0 - t - 1) < 2 ^ 32 :=
          Nat.pow_lt_pow_right (by norm_num) (by omega)
        rw [hack, h32]
        exact Nat.or_lt_two_pow (h32 ▸ hfield) hb
      · intro s hs h1 h2
        rw [hmax, Nat.max_eq_left (le_of_lt hcase)] at h1 h2 ⊢
        rw [hack]
        simp only [Nat.testBit_lor]
        rcases List.mem_append.mp hs with hs | hs
        · rw [hbits s hs h1 h2]; rfl
        · have hst : s = t := by simpa using hs
          subst hst
          rw [@Nat.testBit_two_pow_self (seen.foldl max 0 - s - 1)]
          exact Bool.or_true _
    · -- too far behind: ignored
      have hack : e.ack t = e := by
        unfold ExternalAcks.ack
        simp only [hpos, hneg]
        rw [if_neg (by omega), if_neg (by omega), if_neg hgap]
      refine ⟨?_, by rw [hack]; exact hfield, ?_⟩
      · rw [hack, hmax, Nat.max_eq_left (le_of_lt hcase)]; exact hlast
      · intro s hs h1 h2
        rw [hmax, Nat.max_eq_left (le_of_lt hcase)] at h1 h2 ⊢
        rw [hack]
        rcases List.mem_append.mp hs with hs | hs
        · exact hbits s hs h1 h2
        · have hst : s = t := by simpa using hs
          subst hst
          omega
  · -- the input equals the running maximum: no-op
    have hpos : wsub16 t e.last_sequence_num = 0 := by
      rw [hlast, ← hcase, wsub16_of_le (by omega) (le_refl t)]
      omega
    have hack : e.ack t = e := by
      unfold ExternalAcks.ack
      simp [hpos]
    have hmm : max (seen.foldl max 0) t = seen.foldl max 0 := by
      rw [← hcase]; exact max_self t
    refine ⟨?_, by rw [hack]; exact hfield, ?_⟩
    · rw [hack, hmax, hmm]; exact hlast
    · intro s hs h1 h2
      rw [hmax, hmm] at h1 h2 ⊢
      rw [hack]
      rcases List.mem_append.mp hs with hs | hs
      · exact hbits s hs h1 h2
      · have hst : s = t := by simpa using hs
        subst hst
        omega
  · -- the input is newer than the running maximum
    have hpos : wsub16 t e.last_sequence_num = t - seen.foldl max 0 := by
      rw [hlast]; exact wsub16_of_le (by omega) (le_of_lt hcase)
    by_cases hsmall : t - seen.foldl max 0 ≤ 32
    · -- newer within the window: shift the field
      have hack : e.ack t =
          { last_sequence_num := t,
            ack_field := ((e.ack_field * 2 + 1) *
              2 ^ (t - seen.foldl max 0 - 1)) % 4294967296 } := by
        unfold ExternalAcks.ack
        simp only [hpos]
        rw [if_neg (by omega), if_pos (by omega), if_pos hsmall]
      refine ⟨?_, ?_, ?_⟩
      · rw [hack, hmax, Nat.max_eq_right (le_of_lt hcase)]
      · rw [hack]
        exact Nat.mod_lt _ (by norm_num)
      · intro s hs h1 h2
        rw [hmax, Nat.max_eq_right (le_of_lt hcase)] at h1 h2 ⊢
        rw [hack]
        rcases List.mem_append.mp hs with hs | hs
        · have hsm : s ≤ seen.foldl max 0 := mem_le_foldl_max 0 hs
          rw [h32, Nat.testBit_mod_two_pow, ← Nat.shiftLeft_eq,
            Nat.testBit_shiftLeft]
          simp only [Bool.and_eq_true, decide_eq_true_eq]
          refine ⟨by omega, by omega, ?_⟩
          have hdm : t - s - 1 - (t - seen.foldl max 0 - 1) =
              seen.foldl max 0 - s := by omega
          rw [hdm]
          by_cases hdm0 : seen.foldl max 0 - s = 0
          · rw [hdm0]
            simp only [Nat.testBit_zero, decide_eq_true_eq]
            omega
          · rw [show seen.foldl max 0 - s = (seen.foldl max 0 - s - 1) + 1 by omega,
              Nat.testBit_succ,
              show (e.ack_field * 2 + 1) / 2 = e.ack_field by omega]
            exact hbits s hs (by omega) (by omega)
        · have hst : s = t := by simpa using hs
          subst hst
          omega
    · -- newer but beyond the window: the field is cleared
      have hack : e.ack t = { last_sequence_num := t, ack_field := 0 } := by
        unfold ExternalAcks.ack
        simp only [hpos]
        rw [if_neg (by omega), if_pos (by omega), if_neg hsmall]
      refine ⟨?_, by rw [hack]; norm_num, ?_⟩
      · rw [hack, hmax, Nat.max_eq_right (le_of_lt hcase)]
      · intro s hs h1 h2
        rw [hmax, Nat.max_eq_right (le_of_lt hcase)] at h1 h2 ⊢
        rcases List.mem_append.mp hs with hs | hs
        · have hsm : s ≤ seen.foldl max 0 := mem_le_foldl_max 0 hs
          omega
        · have hst : s = t := by simpa using hs
          subst hst
          omega

/-- The ack invariant holds after any run of in-range acknowledgements from
the default record. -/
lemma ackInv_all (l : List Nat) (h : ∀ s ∈ l, s < 32000) :
    AckInv l (ExternalAcks.ackAll ExternalAcks.default l) := by
  induction l using List.reverseRecOn with
  | nil =>
    refine ⟨rfl, by decide, ?_⟩
    intro s hs
    cases hs
  | append_singleton xs t ih =>
    have hxs : ∀ s ∈ xs, s < 32000 := fun s hs => h s (List.mem_append.mpr (Or.inl hs))
    have ht : t < 32000 := h t (List.mem_append.mpr (Or.inr (List.mem_singleton_self t)))
    have hsplit : ExternalAcks.ackAll ExternalAcks.default (xs ++ [t]) =
        (ExternalAcks.ackAll ExternalAcks.default xs).ack t := by
      unfold ExternalAcks.ackAll
      rw [List.foldl_append]
      rfl
    rw [hsplit]
    exact ackInv_step hxs ht (ih hxs)

/-- C5 counterexample: a single call `ack(65535)` on the default record
leaves `last_sequence_num = 0`, although the newest (indeed only) input is
65535. -/
theorem c5_counterexample :
    (ExternalAcks.ackAll ExternalAcks.default [65535]).last_sequence_num = 0 ∧
    (0 : Nat) ≠ 65535 := by
  refine ⟨by decide, by decide⟩

/-- C5 (amended): for a run of inputs all below 32000 — so the circular
"newer" relation with the source's cutoff coincides with the natural order,
the implicit initial sequence 0 is in range, and no wraparound lap can occur —
`last_sequence_num` ends up equal to the maximum of 0 and all the inputs, and
every input whose forward distance to that maximum lies in `[1, 32]` has bit
`distance - 1` of `ack_field` set. -/
theorem c5_ack_run_invariant (l : List Nat) (h : ∀ s ∈ l, s < 32000) :
    (ExternalAcks.ackAll ExternalAcks.default l).last_sequence_num =
      l.foldl max 0 ∧
    ∀ s ∈ l, 1 ≤ l.foldl max 0 - s → l.foldl max 0 - s ≤ 32 →
      (ExternalAcks.ackAll ExternalAcks.default l).ack_field.testBit
        (l.foldl max 0 - s - 1) = true := by
  have h0 := ackInv_all l h
  unfold AckInv at h0
  exact ⟨h0.1, h0.2.2⟩

/-- C5 witness: the amended statement evaluated on the run
`[0, 1, 2, 6, 4]` of the source's own out-of-order test. -/
theorem c5_ack_run_invariant_witness :
    (ExternalAcks.ackAll ExternalAcks.default [0, 1, 2, 6, 4]).last_sequence_num =
      [0, 1, 2, 6, 4].foldl max 0 ∧
    ∀ s ∈ [0, 1, 2, 6, 4], 1 ≤ [0, 1, 2, 6, 4].foldl max 0 - s →
      [0, 1, 2, 6, 4].foldl max 0 - s ≤ 32 →
      (ExternalAcks.ackAll ExternalAcks.default [0, 1, 2, 6, 4]).ack_field.testBit
        ([0, 1, 2, 6, 4].foldl max 0 - s - 1) = true :=
  c5_ack_run_invariant [0, 1, 2, 6, 4] (by decide)

/-- Length of the encoded standard header: 8 bytes. -/
lemma stdWrite_length (h : StandardHeader) : (StandardHeader.write h).length = 8 := by
  simp [StandardHeader.write, u32be, u16be]

/-- The fragment counter of the source computes the ceiling division for
payloads that fit a `u16`. -/
lemma total_fragments_eq_ceil (L f : Nat) (hf : 0 < f) (hL : L < 65536) :
    total_fragments_needed L f = (L + f - 1) / f := by
  unfold total_fragments_needed
  simp only [Nat.mod_eq_of_lt hL]
  rcases Nat.eq_zero_or_pos (L % f) with h | h
  · rw [if_neg (by omega)]
    obtain ⟨q, hq⟩ := Nat.dvd_of_mod_eq_zero h
    subst hq
    rw [Nat.mul_div_cancel_left q hf,
      Nat.add_sub_assoc (by omega) (f * q),
      Nat.mul_add_div hf, Nat.div_eq_of_lt (show f - 1 < f by omega)]
  · rw [if_pos (by omega)]
    obtain ⟨q, r, hL', hrf, hr0⟩ : ∃ q r, L = f * q + r ∧ r < f ∧ 0 < r :=
      ⟨L / f, L % f, (Nat.div_add_mod L f).symm, Nat.mod_lt L hf, h⟩
    subst hL'
    rw [Nat.mul_add_div hf, Nat.div_eq_of_lt hrf,
      Nat.add_sub_assoc (by omega) (f * q + r), Nat.add_assoc (f * q) r (f - 1),
      show r + (f - 1) = r - 1 + f by omega,
      Nat.mul_add_div hf, Nat.add_div_right _ hf,
      Nat.div_eq_of_lt (show r - 1 < f by omega)]

set_option maxRecDepth 8000 in
/-- C6 counterexample: a 1,280-byte payload at `fragment_size = 5` needs
`ceil(1280 / 5) = 256 > 16` fragments, so the claim demands
`ExceededMaxFragments`; but the count is cast to `u8` (256 wraps to 0), the
check passes, and one unfragmented datagram is produced. -/
theorem c6_counterexample :
    16 < (1280 + 5 - 1) / 5 ∧
    (ProcessedPacket.fragments
        { sequence_num := 0,
          packet := { address := 0, payload := List.replicate 1280 7,
                      delivery_method := DeliveryMethod.UnreliableUnordered },
          reliability := none } 0 5 16).map List.length = Except.ok 1 := by
  constructor
  · decide
  · rfl

/-- C6 (amended): for a payload of length `L` with `1 ≤ L < 2^16` and
`fragment_size ≥ 1`, writing `n = ceil(L / fragment_size)` and assuming the
casts and `u16` slice arithmetic do not truncate (`n ≤ 255` and
`n * fragment_size < 2^16`), `fragments` fails with `ExceededMaxFragments`
exactly when `n > max_fragments`, and otherwise produces `n` datagrams whose
payload parts (the bytes after the headers) are the consecutive slices of the
payload in order, each of `fragment_size` bytes except a possibly shorter
last one. -/
theorem c6_fragments_ceil (p : ProcessedPacket) (crc f mf : Nat)
    (hf : 1 ≤ f) (hL1 : 1 ≤ p.packet.payload.length)
    (hLu : p.packet.payload.length < 65536)
    (hn255 : (p.packet.payload.length + f - 1) / f ≤ 255)
    (hov : (p.packet.payload.length + f - 1) / f * f < 65536) :
    (mf < (p.packet.payload.length + f - 1) / f →
      p.fragments crc f mf = Except.error FragmentError.ExceededMaxFragments) ∧
    ((p.packet.payload.length + f - 1) / f ≤ mf →
      (p.fragments crc f mf).map List.length =
        Except.ok ((p.packet.payload.length + f - 1) / f) ∧
      (p.fragments crc f mf).map (List.map (fun b =>
          b.drop (datagramHeaderLen p ((p.packet.payload.length + f - 1) / f)))) =
        Except.ok ((List.range ((p.packet.payload.length + f - 1) / f)).map
          (fun i => (p.packet.payload.drop (i * f)).take f))) := by
  have hn1 : 1 ≤ (p.packet.payload.length + f - 1) / f := by
    rw [Nat.one_le_div_iff (by omega)]
    omega
  have htf : total_fragments_needed p.packet.payload.length f % 256 =
      (p.packet.payload.length + f - 1) / f := by
    rw [total_fragments_eq_ceil _ f (by omega) hLu]
    exact Nat.mod_eq_of_lt (by omega)
  constructor
  · intro hmf
    unfold ProcessedPacket.fragments
    simp only [htf]
    rw [if_pos hmf]
  · intro hmf
    have hnle : ¬ (mf < (p.packet.payload.length + f - 1) / f) := by omega
    by_cases hone : (p.packet.payload.length + f - 1) / f ≤ 1
    · -- a single fragment: the unfragmented serialization
      have hn' : (p.packet.payload.length + f - 1) / f = 1 := by omega
      have hLf : p.packet.payload.length ≤ f := by
        have h2 : (p.packet.payload.length + f - 1) / f < 2 := by omega
        rw [Nat.div_lt_iff_lt_mul (by omega)] at h2
        omega
      have hres : p.fragments crc f mf =
          Except.ok [p.serialize_unfragmented crc] := by
        unfold ProcessedPacket.fragments
        simp only [htf]
        rw [if_neg hnle, if_pos hone]
      refine ⟨?_, ?_⟩
      · rw [hres, hn']
        rfl
      · rw [hres, hn']
        have hdl : datagramHeaderLen p 1 =
            8 + (reliabilityBytes p.reliability).length := by
          unfold datagramHeaderLen
          norm_num
        have hbuf : (p.serialize_unfragmented crc).drop
            (datagramHeaderLen p 1) = p.packet.payload := by
          unfold ProcessedPacket.serialize_unfragmented
          rw [hdl]
          exact List.drop_left' (by simp [stdWrite_length])
        show Except.ok [(p.serialize_unfragmented crc).drop (datagramHeaderLen p 1)] = _
        rw [hbuf]
        have hr1 : (List.range 1).map
            (fun i => (p.packet.payload.drop (i * f)).take f) =
            [p.packet.payload.take f] := by
          rw [show List.range 1 = [0] by decide, List.map_singleton,
            Nat.zero_mul, List.drop_zero]
        rw [hr1, List.take_of_length_le hLf]
    · -- at least two fragments
      have hres : p.fragments crc f mf =
          Except.ok (p.serialize_fragmented crc
            ((p.packet.payload.length + f - 1) / f) f) := by
        unfold ProcessedPacket.fragments
        simp only [htf]
        rw [if_neg hnle, if_neg hone]
      have hdl : datagramHeaderLen p ((p.packet.payload.length + f - 1) / f) =
          8 + 2 + (reliabilityBytes p.reliability).length := by
        simp [datagramHeaderLen, hone]
      have hAle : (p.packet.payload.length + f - 1) / f * f ≤
          p.packet.payload.length + f - 1 := Nat.div_mul_le_self _ f
      refine ⟨?_, ?_⟩
      · rw [hres]
        show Except.ok (p.serialize_fragmented crc _ f).length = _
        unfold ProcessedPacket.serialize_fragmented
        rw [List.length_map, List.length_range]
      · rw [hres, hdl]
        show Except.ok ((p.serialize_fragmented crc _ f).map _) = _
        unfold ProcessedPacket.serialize_fragmented
        rw [List.map_map]
        refine congrArg Except.ok (List.map_congr_left ?_)
        intro i hi
        have hi' : i < (p.packet.payload.length + f - 1) / f := List.mem_range.mp hi
        have hCi : (i + 1) * f = i * f + f := Nat.succ_mul i f
        have hnif : (i + 1) * f ≤ (p.packet.payload.length + f - 1) / f * f :=
          Nat.mul_le_mul_right f (by omega)
        have hstart : i * f % 65536 = i * f := Nat.mod_eq_of_lt (by omega)
        have hend : (i + 1) * f % 65536 = (i + 1) * f := Nat.mod_eq_of_lt (by omega)
        simp only [Function.comp]
        rw [hstart, hend]
        rw [List.drop_left' (by simp [stdWrite_length, writeFragmentHeader]; omega)]
        rcases Nat.lt_or_ge p.packet.payload.length ((i + 1) * f) with hcase | hcase
        · rw [if_pos hcase, List.take_eq_take, List.length_drop]
          omega
        · rw [if_neg (by omega), List.take_eq_take, List.length_drop]
          omega

/-- C6 witness: the amended statement at a 12-byte payload with
`fragment_size = 5` (three fragments of lengths 5, 5, 2). -/
theorem c6_fragments_ceil_witness :
    (16 < (([1, 2, 3, 4, 5, 6, 7, 8, 9, 10, 11, 12] : List Nat).length + 5 - 1) / 5 →
      (ProcessedPacket.fragments
          { sequence_num := 9,
            packet := { address := 0,
                        payload := [1, 2, 3, 4, 5, 6, 7, 8, 9, 10, 11, 12],
                        delivery_method := DeliveryMethod.UnreliableUnordered },
            reliability := none } 7 5 16) =
        Except.error FragmentError.ExceededMaxFragments) ∧
    ((([1, 2, 3, 4, 5, 6, 7, 8, 9, 10, 11, 12] : List Nat).length + 5 - 1) / 5 ≤ 16 →
      (ProcessedPacket.fragments
          { sequence_num := 9,
            packet := { address := 0,
                        payload := [1, 2, 3, 4, 5, 6, 7, 8, 9, 10, 11, 12],
                        delivery_method := DeliveryMethod.UnreliableUnordered },
            reliability := none } 7 5 16).map List.length =
        Except.ok ((([1, 2, 3, 4, 5, 6, 7, 8, 9, 10, 11, 12] : List Nat).length + 5 - 1) / 5) ∧
      (ProcessedPacket.fragments
          { sequence_num := 9,
            packet := { address := 0,
                        payload := [1, 2, 3, 4, 5, 6, 7, 8, 9, 10, 11, 12],
                        delivery_method := DeliveryMethod.UnreliableUnordered },
            reliability := none } 7 5 16).map (List.map (fun b =>
          b.drop (datagramHeaderLen
            { sequence_num := 9,
              packet := { address := 0,
                          payload := [1, 2, 3, 4, 5, 6, 7, 8, 9, 10, 11, 12],
                          delivery_method := DeliveryMethod.UnreliableUnordered },
              reliability := none }
            ((([1, 2, 3, 4, 5, 6, 7, 8, 9, 10, 11, 12] : List Nat).length + 5 - 1) / 5)))) =
        Except.ok ((List.range
            ((([1, 2, 3, 4, 5, 6, 7, 8, 9, 10, 11, 12] : List Nat).length + 5 - 1) / 5)).map
          (fun i => (([1, 2, 3, 4, 5, 6, 7, 8, 9, 10, 11, 12] : List Nat).drop (i * 5)).take 5))) :=
  c6_fragments_ceil
    { sequence_num := 9,
      packet := { address := 0,
                  payload := [1, 2, 3, 4, 5, 6, 7, 8, 9, 10, 11, 12],
                  delivery_method := DeliveryMethod.UnreliableUnordered },
      reliability := none } 7 5 16
    (by decide) (by decide) (by decide) (by decide) (by decide)

/-- C7: `process_outgoing` fails with `ExceededMaxPacketSize` exactly when
the payload is strictly longer than the connection's maximum packet size, and
on that failure the whole connection state is unchanged and no processed
packet is produced. -/
theorem c7_process_outgoing_oversize (conn : VirtualConnection) (now : Nat)
    (p : Packet) :
    ((conn.process_outgoing now p).2 = Except.error PacketError.ExceededMaxPacketSize ↔
      conn.max_packet_size_bytes < p.payload.length) ∧
    (conn.max_packet_size_bytes < p.payload.length →
      (conn.process_outgoing now p).1 = conn) := by
  unfold VirtualConnection.process_outgoing
  by_cases h : conn.max_packet_size_bytes < p.payload.length
  · simp [h]
  · simp [h]

/-- C7 witness: the statement evaluated at a connection with the default
maximum (1466 bytes) and a 1500-byte payload. -/
theorem c7_process_outgoing_oversize_witness :
    (((VirtualConnection.new 0 SocketConfig.mkDefault 0).process_outgoing 5
          { address := 0, payload := List.replicate 1500 0,
            delivery_method := DeliveryMethod.ReliableUnordered }).2 =
        Except.error PacketError.ExceededMaxPacketSize ↔
      (VirtualConnection.new 0 SocketConfig.mkDefault 0).max_packet_size_bytes <
        (List.replicate (1500 : Nat) (0 : Nat)).length) ∧
    ((VirtualConnection.new 0 SocketConfig.mkDefault 0).max_packet_size_bytes <
        (List.replicate (1500 : Nat) (0 : Nat)).length →
      ((VirtualConnection.new 0 SocketConfig.mkDefault 0).process_outgoing 5
          { address := 0, payload := List.replicate 1500 0,
            delivery_method := DeliveryMethod.ReliableUnordered }).1 =
        VirtualConnection.new 0 SocketConfig.mkDefault 0) :=
  c7_process_outgoing_oversize (VirtualConnection.new 0 SocketConfig.mkDefault 0) 5
    { address := 0, payload := List.replicate 1500 0,
      delivery_method := DeliveryMethod.ReliableUnordered }

/-- C9: a connection created for a previously unseen address starts with
sequence number 0, default local and external ack records and an empty
dropped-packets queue, and the first outgoing packet it accepts is assigned
sequence number 0. -/
theorem c9_fresh_connection_initial_state (ac : ActiveConnections) (address : Nat)
    (config : SocketConfig) (now now2 : Nat)
    (h : ac.lookup address = none) :
    (ac.get_or_insert_connection address config now).1.sequence_num = 0 ∧
    (ac.get_or_insert_connection address config now).1.local_acks =
      LocalAckRecord.mkDefault ∧
    (ac.get_or_insert_connection address config now).1.external_acks =
      ExternalAcks.default ∧
    (ac.get_or_insert_connection address config now).1.dropped_packets = [] ∧
    ∀ p pp, ((ac.get_or_insert_connection address config now).1.process_outgoing
        now2 p).2 = Except.ok pp → pp.sequence_num = 0 := by
  have hc : (ac.get_or_insert_connection address config now).1 =
      VirtualConnection.new address config now := by
    unfold ActiveConnections.get_or_insert_connection
    unfold ActiveConnections.lookup at h
    simp [h, List.lookup]
  rw [hc]
  refine ⟨rfl, rfl, rfl, rfl, ?_⟩
  intro p pp hpp
  unfold VirtualConnection.process_outgoing at hpp
  split at hpp
  · exact absurd hpp (by simp)
  · simp only [Except.ok.injEq] at hpp
    rw [← hpp]
    cases h : p.delivery_method <;> simp [h, VirtualConnection.new]

/-- C9 witness: the statement evaluated on the empty registry. -/
theorem c9_fresh_connection_initial_state_witness :
    (ActiveConnections.get_or_insert_connection { connections := [] } 4
        SocketConfig.mkDefault 11).1.sequence_num = 0 ∧
    (ActiveConnections.get_or_insert_connection { connections := [] } 4
        SocketConfig.mkDefault 11).1.local_acks = LocalAckRecord.mkDefault ∧
    (ActiveConnections.get_or_insert_connection { connections := [] } 4
        SocketConfig.mkDefault 11).1.external_acks = ExternalAcks.default ∧
    (ActiveConnections.get_or_insert_connection { connections := [] } 4
        SocketConfig.mkDefault 11).1.dropped_packets = [] ∧
    ∀ p pp, ((ActiveConnections.get_or_insert_connection { connections := [] } 4
        SocketConfig.mkDefault 11).1.process_outgoing 12 p).2 = Except.ok pp →
      pp.sequence_num = 0 :=
  c9_fresh_connection_initial_state { connections := [] } 4 SocketConfig.mkDefault
    11 12 rfl

/-- C10: an incoming datagram that decodes with a valid protocol version and
a delivery method other than `ReliableUnordered` leaves every connection
field unchanged except `last_packet_time`, which is set to the current
instant. -/
theorem c10_non_reliable_incoming_updates_only_time (conn : VirtualConnection)
    (crc now : Nat) (bytes : List Nat) (hdr : StandardHeader) (rest : List Nat)
    (hread : StandardHeader.read bytes = some (hdr, rest))
    (hver : hdr.protocol_version = crc)
    (hdm : hdr.delivery_method ≠ DeliveryMethod.ReliableUnordered) :
    (conn.process_incoming crc now bytes).1 =
      { conn with last_packet_time := now } := by
  unfold VirtualConnection.process_incoming
  rw [hread]
  cases h : hdr.delivery_method
  case ReliableUnordered => exact absurd h hdm
  all_goals simp [hver, h]

/-- C10 witness: the statement evaluated at a fresh connection receiving a
valid unreliable-unordered datagram. -/
theorem c10_non_reliable_incoming_updates_only_time_witness :
    ((VirtualConnection.new 3 SocketConfig.mkDefault 0).process_incoming 7 99
        [0, 0, 0, 7, 0, 0, 0, 5, 1, 2]).1 =
      { VirtualConnection.new 3 SocketConfig.mkDefault 0 with
          last_packet_time := 99 } :=
  c10_non_reliable_incoming_updates_only_time
    (VirtualConnection.new 3 SocketConfig.mkDefault 0) 7 99
    [0, 0, 0, 7, 0, 0, 0, 5, 1, 2]
    { protocol_version := 7, packet_type := PacketType.Packet,
      delivery_method := DeliveryMethod.UnreliableUnordered, sequence_num := 5 }
    [1, 2] (by decide) rfl (by decide)

/-- C8 counterexample: in the concrete scenario the first reliable ack
reports the payload `[1, 2, 3]` dropped; after the second reliable ack
reports `[9, 9]` dropped, draining returns only `[9, 9]` — the previously
detected, never drained `[1, 2, 3]` is gone rather than preserved. -/
theorem c8_counterexample :
    dropScene2.dropped_packets = [[1, 2, 3]] ∧
    dropScene4.drain_dropped_packets.1 = [[9, 9]] ∧
    dropScene4.drain_dropped_packets.1 ≠ [[1, 2, 3], [9, 9]] := by
  refine ⟨by decide, by decide, by decide⟩

/-- C8 (amended): when `process_incoming` handles a `ReliableUnordered`
packet, the dropped-packets queue is replaced by exactly the payloads the
local ack record newly reports as dropped; previously detected payloads that
were not drained are discarded — the post-state queue does not depend on the
pre-state queue — so a later drain returns only the new drops. -/
theorem c8_dropped_queue_replaced (conn : VirtualConnection) (crc now : Nat)
    (bytes : List Nat) (hdr : StandardHeader) (rest rest2 : List Nat)
    (rh : ReliableHeader)
    (hread : StandardHeader.read bytes = some (hdr, rest))
    (hver : hdr.protocol_version = crc)
    (hdm : hdr.delivery_method = DeliveryMethod.ReliableUnordered)
    (hrel : ReliableHeader.read rest = some (rh, rest2)) :
    (conn.process_incoming crc now bytes).1.dropped_packets =
      ((conn.local_acks.ack rh.last_acked rh.ack_field).1).map Prod.snd ∧
    ∀ q, (({ conn with dropped_packets := q } :
        VirtualConnection).process_incoming crc now bytes).1.dropped_packets =
      (conn.process_incoming crc now bytes).1.dropped_packets := by
  unfold VirtualConnection.process_incoming
  rw [hread]
  constructor
  · simp [hver, hdm, hrel]
  · intro q
    simp [hver, hdm, hrel]

/-- C8 witness: the amended statement evaluated at the connection of the
concrete scenario and the first reliable ack datagram. -/
theorem c8_dropped_queue_replaced_witness :
    (dropScene1.process_incoming 7 2
        ([0, 0, 0, 7, 0, 1, 0, 9] ++ [0, 0, 0, 40, 0, 0, 0, 0])).1.dropped_packets =
      ((dropScene1.local_acks.ack 40 0).1).map Prod.snd ∧
    ∀ q, (({ dropScene1 with dropped_packets := q } :
        VirtualConnection).process_incoming 7 2
          ([0, 0, 0, 7, 0, 1, 0, 9] ++ [0, 0, 0, 40, 0, 0, 0, 0])).1.dropped_packets =
      (dropScene1.process_incoming 7 2
        ([0, 0, 0, 7, 0, 1, 0, 9] ++ [0, 0, 0, 40, 0, 0, 0, 0])).1.dropped_packets :=
  c8_dropped_queue_replaced dropScene1 7 2
    ([0, 0, 0, 7, 0, 1, 0, 9] ++ [0, 0, 0, 40, 0, 0, 0, 0])
    { protocol_version := 7, packet_type := PacketType.Packet,
      delivery_method := DeliveryMethod.ReliableUnordered, sequence_num := 9 }
    ([0, 0, 0, 40, 0, 0, 0, 0]) [] { sequence_num := 0, last_acked := 40, ack_field := 0 }
    (by decide) rfl rfl (by decide)

end LaminarMio
